import Mathlib

/-!
Verification development for an asynchronous MPD (music player daemon)
client library.  The Python source is shallowly embedded: byte strings
become `List Nat` (each element a byte value), text strings become
`List Char`, fallible code returns `Option`/`Except`, and the stateful
protocol callback becomes an explicit state-transition function.
-/

set_option maxRecDepth 10000
set_option maxHeartbeats 1000000

/-- Bytes of an ASCII/Unicode string, via UTF-8 code of each char.
Used only on ASCII literals, where UTF-8 encoding is the identity on
code points. -/
def strBytes (s : String) : List Nat :=
  s.toList.map Char.toNat

/-- The byte string `b"OK"`. -/
def okBytes : List Nat := [79, 75]

/-- The byte string `b"OK\n"`. -/
def oknlBytes : List Nat := [79, 75, 10]

/-- The byte string `b"ACK ["`. -/
def ackBytes : List Nat := [65, 67, 75, 32, 91]

/-- Messages pushed into the client's received-data queue by
`Protocol.data_received`: either a raw success buffer (`bytes`) or an
`ExceptionQueueItem` built from an error delivery. -/
inductive Msg
  | ok (bytes : List Nat)
  | exc (data : List Nat)
  deriving DecidableEq, Repr

/-- The success-frame boundary test of `Protocol.data_received`
(src/aiompd/protocol.py lines 26-28), with Python operator precedence
made explicit:
`(input_data.startswith(b"OK") and input_data[-1] == ord('\n'))
 or input_data.endswith(b"OK\n")`. -/
def emitCond (buf : List Nat) : Bool :=
  (okBytes.isPrefixOf buf && (buf.getLast? == some 10)) || oknlBytes.isSuffixOf buf

/-- One call of `Protocol.data_received` (src/aiompd/protocol.py lines
19-32), abstracting the queue into the list of messages pushed during
the call.  Returns the new accumulated buffer and the pushed messages. -/
def dataReceived (buf data : List Nat) : List Nat × List Msg :=
  if buf.isEmpty && ackBytes.isPrefixOf data then
    ([], [Msg.exc data])
  else
    let nb := buf ++ data
    if emitCond nb then ([], [Msg.ok nb]) else (nb, [])

/-- Feeding a sequence of deliveries to `data_received`, collecting all
pushed messages in order. -/
def feedChunks (buf : List Nat) : List (List Nat) → List Nat × List Msg
  | [] => (buf, [])
  | c :: cs =>
    let r := dataReceived buf c
    let r2 := feedChunks r.1 cs
    (r2.1, r.2 ++ r2.2)

/-- The success-frame condition as the spec words it for C1: the buffer
equals exactly `OK\n` or ends with the suffix `OK\n`. -/
def specSuccessCond (buf : List Nat) : Prop :=
  buf = oknlBytes ∨ oknlBytes.isSuffixOf buf = true

instance (buf : List Nat) : Decidable (specSuccessCond buf) := by
  unfold specSuccessCond; infer_instance

/-- C1 counterexample: delivering `b"OK x\n"` to an empty buffer emits a
Success frame although the accumulated buffer neither equals `OK\n` nor
ends with `OK\n` — the code also fires on any buffer that starts with
`OK` and ends in a newline byte. -/
theorem C1_counterexample :
    dataReceived [] (strBytes "OK x\n") = ([], [Msg.ok (strBytes "OK x\n")]) ∧
    ¬ specSuccessCond (strBytes "OK x\n") := by
  constructor
  · rfl
  · decide

/-- C1 (amended): after a delivery is appended (i.e. the error-frame
branch is not taken), the whole accumulated buffer is emitted as a
Success frame and the buffer cleared exactly when the buffer ends with
`OK\n`, or starts with `OK` and its last byte is a newline; otherwise
nothing is emitted and the buffer keeps the accumulated bytes. -/
theorem C1_amended_emit_iff (buf data : List Nat)
    (h : ¬(buf.isEmpty && ackBytes.isPrefixOf data) = true) :
    (dataReceived buf data = ([], [Msg.ok (buf ++ data)]) ↔
      (oknlBytes.isSuffixOf (buf ++ data) = true ∨
        (okBytes.isPrefixOf (buf ++ data) = true ∧
          (buf ++ data).getLast? = some 10))) ∧
    (¬(oknlBytes.isSuffixOf (buf ++ data) = true ∨
        (okBytes.isPrefixOf (buf ++ data) = true ∧
          (buf ++ data).getLast? = some 10)) →
      dataReceived buf data = (buf ++ data, [])) := by
  unfold dataReceived emitCond
  rw [if_neg h]
  by_cases hc : (okBytes.isPrefixOf (buf ++ data) &&
      ((buf ++ data).getLast? == some 10)) || oknlBytes.isSuffixOf (buf ++ data)
  · simp only [hc, if_pos]
    simp only [Bool.or_eq_true, Bool.and_eq_true, beq_iff_eq] at hc
    constructor
    · simp only [true_iff]
      tauto
    · intro hn
      exact absurd (by tauto) hn
  · rw [if_neg hc]
    simp only [Bool.or_eq_true, Bool.and_eq_true, beq_iff_eq, not_or, not_and] at hc
    constructor
    · constructor
      · intro he
        have : ([] : List Msg) = [Msg.ok (buf ++ data)] := congrArg Prod.snd he
        exact absurd this (by simp)
      · intro hor
        rcases hor with h1 | ⟨h2, h3⟩
        · exact absurd h1 hc.2
        · exact absurd h3 (hc.1 h2)
    · intro _
      rfl

/-- C1 amended witness: concrete instance, buffer `b"volume: 5"` plus
delivery `b"0\nOK\n"` emits the whole buffer. -/
theorem C1_amended_witness :
    dataReceived (strBytes "volume: 5") (strBytes "0\nOK\n") =
      ([], [Msg.ok (strBytes "volume: 50\nOK\n")]) := by
  have h := C1_amended_emit_iff (strBytes "volume: 5") (strBytes "0\nOK\n")
    (by decide)
  exact h.1.mpr (by decide)

/-- Concatenation of a list of byte chunks. -/
def catChunks (ls : List (List Nat)) : List Nat :=
  ls.foldr (fun a b => a ++ b) []

/-- A `Key: Value` line as bytes: key, colon (58), space (32), value. -/
def kvLine (k v : List Nat) : List Nat := k ++ 58 :: 32 :: v

/-- Spec-side definition (wire grammar of section 6): a valid Success
Frame is zero or more `Key: Value\n` lines followed by a trailing
`OK\n` line. -/
def specValidSuccessFrame (s : List Nat) : Prop :=
  ∃ ls : List (List Nat × List Nat),
    (∀ p ∈ ls, 10 ∉ p.1 ∧ 10 ∉ p.2) ∧
    s = catChunks (ls.map (fun p => kvLine p.1 p.2 ++ [10])) ++ oknlBytes

/-- C2 counterexample: `b"a: xOK\nOK\n"` is one valid Success Frame, yet
splitting it into the two chunks `b"a: xOK\n"` and `b"OK\n"` makes the
decoder emit two frames (the first line already ends with `OK\n`),
whereas a single delivery emits one frame of the whole sequence. -/
theorem C2_counterexample :
    specValidSuccessFrame (strBytes "a: xOK\nOK\n") ∧
    strBytes "a: xOK\n" ++ strBytes "OK\n" = strBytes "a: xOK\nOK\n" ∧
    (feedChunks [] [strBytes "a: xOK\n", strBytes "OK\n"]).2 ≠
      (feedChunks [] [strBytes "a: xOK\nOK\n"]).2 := by
  refine ⟨⟨[(strBytes "a", strBytes "xOK")], by decide, by decide⟩, by decide, by decide⟩

/-- A nonempty list of nonempty chunks concatenates to a nonempty list. -/
theorem catChunks_ne_nil (chunks : List (List Nat)) (hne : chunks ≠ [])
    (hall : ∀ c ∈ chunks, c ≠ []) : catChunks chunks ≠ [] := by
  match chunks with
  | [] => exact absurd rfl hne
  | c :: cs =>
    have hc : c ≠ [] := hall c (by simp)
    simp only [catChunks, List.foldr_cons]
    intro h
    exact hc (List.append_eq_nil.mp h).1

/-- Main run lemma for chunked feeding: if no proper nonempty prefix of
`s` satisfies the boundary condition, `s` does not begin with `ACK [`,
and `s` itself satisfies the boundary condition, then feeding any
partition of the remaining bytes of `s` onto a buffer holding the
already-fed prefix emits exactly the single frame `s`. -/
theorem feedChunks_run (s : List Nat)
    (hack : ¬ ackBytes.isPrefixOf s = true)
    (hnoEarly : ∀ n, n < s.length → 0 < n → emitCond (s.take n) = false)
    (hemit : emitCond s = true) :
    ∀ chunks buf, chunks ≠ [] → (∀ c ∈ chunks, c ≠ []) →
      buf ++ catChunks chunks = s →
      feedChunks buf chunks = ([], [Msg.ok s]) := by
  intro chunks
  induction chunks with
  | nil => intro buf h; exact absurd rfl h
  | cons c cs ih =>
    intro buf _ hall hcat
    have hc_ne : c ≠ [] := hall c (by simp)
    have hcat' : ((buf ++ c) ++ catChunks cs) = s := by
      rw [List.append_assoc]
      simpa [catChunks] using hcat
    have hnotack : ¬(buf.isEmpty && ackBytes.isPrefixOf c) = true := by
      intro hb
      simp only [Bool.and_eq_true, List.isEmpty_iff] at hb
      apply hack
      rw [List.isPrefixOf_iff_prefix] at hb ⊢
      refine hb.2.trans ?_
      subst hcat
      rw [hb.1]
      simp [catChunks, List.prefix_append]
    cases cs with
    | nil =>
      have hbc : buf ++ c = s := by simpa [catChunks] using hcat'
      simp only [feedChunks, dataReceived, if_neg hnotack, hbc, hemit,
        if_pos, List.append_nil]
    | cons c2 cs2 =>
      have hrest_ne : catChunks (c2 :: cs2) ≠ [] :=
        catChunks_ne_nil _ (by simp) (fun x hx => hall x (by simp [hx]))
      have hlt : (buf ++ c).length < s.length := by
        have := List.length_pos.mpr hrest_ne
        rw [← hcat']
        simp only [List.length_append]
        omega
      have hpos : 0 < (buf ++ c).length := by
        have := List.length_pos.mpr hc_ne
        simp only [List.length_append]
        omega
      have htake : s.take (buf ++ c).length = buf ++ c := by
        rw [← hcat']
        exact List.take_left _ _
      have hnoemit : emitCond (buf ++ c) = false := by
        have := hnoEarly (buf ++ c).length hlt hpos
        rwa [htake] at this
      have hstep : dataReceived buf c = (buf ++ c, []) := by
        simp only [dataReceived, if_neg hnotack, hnoemit]
        simp
      have hrec := ih (buf ++ c) (by simp) (fun x hx => hall x (by simp [hx])) hcat'
      calc feedChunks buf (c :: c2 :: cs2)
          = ((feedChunks (dataReceived buf c).1 (c2 :: cs2)).1,
              (dataReceived buf c).2 ++
                (feedChunks (dataReceived buf c).1 (c2 :: cs2)).2) := rfl
        _ = ([], [Msg.ok s]) := by rw [hstep]; simp [hrec]

/-- C2 (amended): chunking-invariance holds for every byte sequence that
satisfies the boundary condition, does not begin with `ACK [`, and none
of whose proper nonempty prefixes satisfies the boundary condition: any
partition into nonempty chunks emits exactly the single frame `s`,
identical to a single whole delivery.  (The unrestricted claim fails:
see the counterexample, where a proper prefix of a valid Success Frame
already ends with `OK\n` and is emitted early.) -/
theorem C2_amended_chunk_invariance (s : List Nat)
    (hack : ¬ ackBytes.isPrefixOf s = true)
    (hnoEarly : ∀ n, n < s.length → 0 < n → emitCond (s.take n) = false)
    (hemit : emitCond s = true)
    (chunks : List (List Nat)) (hne : chunks ≠ [])
    (hall : ∀ c ∈ chunks, c ≠ []) (hcat : catChunks chunks = s) :
    (feedChunks [] chunks).2 = [Msg.ok s] ∧
    (feedChunks [] [s]).2 = [Msg.ok s] := by
  have hs_ne : s ≠ [] := hcat ▸ catChunks_ne_nil chunks hne hall
  constructor
  · rw [feedChunks_run s hack hnoEarly hemit chunks [] hne hall (by simpa using hcat)]
  · rw [feedChunks_run s hack hnoEarly hemit [s] [] (by simp)
      (by simpa using hs_ne) (by simp [catChunks])]

/-- C2 amended witness: the frame `b"volume: 50\nOK\n"`, delivered in
three chunks, emits exactly the one whole frame, the same as a single
delivery. -/
theorem C2_amended_witness :
    (feedChunks [] [strBytes "volu", strBytes "me: 50\nO", strBytes "K\n"]).2 =
      [Msg.ok (strBytes "volume: 50\nOK\n")] ∧
    (feedChunks [] [strBytes "volume: 50\nOK\n"]).2 =
      [Msg.ok (strBytes "volume: 50\nOK\n")] := by
  exact C2_amended_chunk_invariance (strBytes "volume: 50\nOK\n")
    (by decide) (by decide) (by decide)
    [strBytes "volu", strBytes "me: 50\nO", strBytes "K\n"]
    (by decide) (by decide) (by decide)

/-- Python `str.split('\n')`: splits at every newline, producing one
more part than there are newlines. -/
def splitNl : List Char → List (List Char)
  | [] => [[]]
  | c :: rest =>
    let r := splitNl rest
    if c = '\n' then [] :: r else (c :: r.headI) :: r.tail

/-- Whether the first character of a list is a space. -/
def headIsSpace : List Char → Bool
  | [] => false
  | c :: _ => c == ' '

/-- Split a line at the first occurrence of the separator `": "`,
modelling Python `line.split(': ', 1)`; `none` is the one-part result
(no separator present), which makes `dict(...)` construction or tuple
unpacking raise `ValueError` at the call sites. -/
def splitCS : List Char → Option (List Char × List Char)
  | [] => none
  | c :: rest =>
    if c == ':' && headIsSpace rest then some ([], rest.tail)
    else (splitCS rest).map (fun p => (c :: p.1, p.2))

/-- Lookup in a Python dict built by inserting the listed pairs in
order: a later binding of a key overwrites an earlier one. -/
def lookupLast (k : List Char) : List (List Char × List Char) → Option (List Char)
  | [] => none
  | p :: ps =>
    match lookupLast k ps with
    | some v => some v
    | none => if p.1 = k then some p.2 else none

/-- Split every line on the first `": "`, failing if a line lacks the
separator; models `dict(l.split(': ', 1) for l in lines)` raising on a
one-part element. -/
def parseLines : List (List Char) → Option (List (List Char × List Char))
  | [] => some []
  | l :: ls => do
    let p ← splitCS l
    let ps ← parseLines ls
    pure (p :: ps)

/-- ASCII decimal digit test. -/
def isDigitCh (c : Char) : Bool := '0' ≤ c && c ≤ '9'

/-- Numeric value of a digit run. -/
def digitsVal (l : List Char) : Nat :=
  l.foldl (fun a c => a * 10 + (c.toNat - 48)) 0

/-- Python `str.isspace` characters (the set `str.strip()` removes). -/
def isPySpace (c : Char) : Bool :=
  c.toNat = 32 || c.toNat = 9 || c.toNat = 10 || c.toNat = 13 ||
  c.toNat = 11 || c.toNat = 12 || c.toNat = 28 || c.toNat = 29 ||
  c.toNat = 30 || c.toNat = 31 || c.toNat = 133 || c.toNat = 160 ||
  c.toNat = 5760 || (8192 ≤ c.toNat && c.toNat ≤ 8202) ||
  c.toNat = 8232 || c.toNat = 8233 || c.toNat = 8239 ||
  c.toNat = 8287 || c.toNat = 12288

/-- Python `str.strip()`: drop whitespace from both ends. -/
def pyStrip (l : List Char) : List Char :=
  ((l.dropWhile isPySpace).reverse.dropWhile isPySpace).reverse

/-- Python `int(...)` on a string: optional surrounding whitespace and
sign, then a nonempty digit run; `none` models `ValueError`. -/
def pyInt (l : List Char) : Option Int :=
  match pyStrip l with
  | '-' :: ds =>
    if !ds.isEmpty && ds.all isDigitCh then some (-(digitsVal ds : Int)) else none
  | '+' :: ds =>
    if !ds.isEmpty && ds.all isDigitCh then some (digitsVal ds) else none
  | ds =>
    if !ds.isEmpty && ds.all isDigitCh then some (digitsVal ds) else none

/-- The `Status` namedtuple (src/aiompd/types.py), with every field
optional exactly as produced by `status_from_raw`. -/
structure Status where
  state : Option (List Char)
  time : Option (List Char)
  elapsed : Option (List Char)
  bitrate : Option (List Char)
  mixrampdb : Option (List Char)
  mixrampdelay : Option (List Char)
  audio : Option (List Char)
  error : Option (List Char)
  «repeat» : Option Bool
  random : Option Bool
  single : Option Bool
  consume : Option Bool
  volume : Option Int
  playlist : Option Int
  playlistlength : Option Int
  song : Option Int
  songid : Option Int
  nextsong : Option Int
  nextsongid : Option Int
  duration : Option Int
  xfade : Option Int
  updating_db : Option Int
  deriving DecidableEq, Repr

/-- `_str_bool` (src/aiompd/helpers.py lines 46-47) applied to a
`parsed.get(key)` result: `v != '0' if v else None`. -/
def strBoolOf (v : Option (List Char)) : Option Bool :=
  match v with
  | none => none
  | some [] => none
  | some s => some (s != "0".toList)

/-- `_str_int` (src/aiompd/helpers.py lines 50-51) applied to a
`parsed.get(key)` result: `int(v) if v else None`, where `int` may
raise (outer `none`). -/
def strIntOf (v : Option (List Char)) : Option (Option Int) :=
  match v with
  | none => some none
  | some [] => some none
  | some s => (pyInt s).map some

/-- `status_from_raw` (src/aiompd/helpers.py lines 54-84): split the
raw text on `'\n'`, drop the last two parts, build a dict by splitting
each remaining line on the first `": "`, then populate the `Status`
record field by field.  `none` models an exception escaping the
function (a separator-less line, or an unparseable int value). -/
def status_from_raw (raw : List Char) : Option Status := do
  let ps ← parseLines ((splitNl raw).dropLast.dropLast)
  let volume ← strIntOf (lookupLast "volume".toList ps)
  let playlist ← strIntOf (lookupLast "playlist".toList ps)
  let playlistlength ← strIntOf (lookupLast "playlistlength".toList ps)
  let song ← strIntOf (lookupLast "song".toList ps)
  let songid ← strIntOf (lookupLast "songid".toList ps)
  let nextsong ← strIntOf (lookupLast "nextsong".toList ps)
  let nextsongid ← strIntOf (lookupLast "nextsongid".toList ps)
  let duration ← strIntOf (lookupLast "duration".toList ps)
  let xfade ← strIntOf (lookupLast "xfade".toList ps)
  let updating_db ← strIntOf (lookupLast "updating_db".toList ps)
  pure {
    state := lookupLast "state".toList ps
    time := lookupLast "time".toList ps
    elapsed := lookupLast "elapsed".toList ps
    bitrate := lookupLast "bitrate".toList ps
    mixrampdb := lookupLast "mixrampdb".toList ps
    mixrampdelay := lookupLast "mixrampdelay".toList ps
    audio := lookupLast "audio".toList ps
    error := lookupLast "error".toList ps
    «repeat» := strBoolOf (lookupLast "repeat".toList ps)
    random := strBoolOf (lookupLast "random".toList ps)
    single := strBoolOf (lookupLast "single".toList ps)
    consume := strBoolOf (lookupLast "consume".toList ps)
    volume := volume
    playlist := playlist
    playlistlength := playlistlength
    song := song
    songid := songid
    nextsong := nextsong
    nextsongid := nextsongid
    duration := duration
    xfade := xfade
    updating_db := updating_db }

/-- C4 counterexample: on the spec's example input (which contains a
blank line before the `OK` terminator) the status decoder fails rather
than returning a snapshot: `split('\n')[:-2]` leaves the blank line in
place and the key/value split of that blank line raises. -/
theorem C4_counterexample :
    status_from_raw ("volume: 50\nrepeat: 1\nstate: play\n\nOK\n".toList) = none := by
  rfl

/-- C4 (amended): on the input without the spurious blank line,
`"volume: 50\nrepeat: 1\nstate: play\nOK\n"`, the status decoder
returns a snapshot with volume=50, repeat=true, state="play", and every
other field null. -/
theorem C4_amended_status_decode :
    status_from_raw ("volume: 50\nrepeat: 1\nstate: play\nOK\n".toList) =
      some {
        state := some "play".toList
        time := none
        elapsed := none
        bitrate := none
        mixrampdb := none
        mixrampdelay := none
        audio := none
        error := none
        «repeat» := some true
        random := none
        single := none
        consume := none
        volume := some 50
        playlist := none
        playlistlength := none
        song := none
        songid := none
        nextsong := none
        nextsongid := none
        duration := none
        xfade := none
        updating_db := none } := by
  rfl


/-- Build a raw status response from key/value pairs: each pair becomes
a `key: value` line, with a trailing `OK\n` terminator (the wire format
of a success response, section 6 of the spec). -/
def mkStatusRaw (ps : List (List Char × List Char)) : List Char :=
  ps.foldr (fun p acc => p.1 ++ ':' :: ' ' :: p.2 ++ '\n' :: acc) "OK\n".toList

/-- Whether a character list contains the separator `": "`. -/
def hasCS : List Char → Bool
  | [] => false
  | c :: rest => (c == ':' && headIsSpace rest) || hasCS rest

theorem splitNl_cons_line (l rest : List Char) (hl : '\n' ∉ l) :
    splitNl (l ++ '\n' :: rest) = l :: splitNl rest := by
  induction l with
  | nil => simp [splitNl]
  | cons c cs ih =>
    have hc : c ≠ '\n' := fun h => hl (h ▸ List.mem_cons_self c cs)
    have hcs : '\n' ∉ cs := fun h => hl (List.mem_cons_of_mem c h)
    simp only [List.cons_append, splitNl, if_neg hc]
    simp [ih hcs]

theorem splitNl_mkStatusRaw (ps : List (List Char × List Char))
    (h : ∀ p ∈ ps, '\n' ∉ p.1 ∧ '\n' ∉ p.2) :
    splitNl (mkStatusRaw ps) =
      ps.map (fun p => p.1 ++ ':' :: ' ' :: p.2) ++ ["OK".toList, []] := by
  induction ps with
  | nil => rfl
  | cons p ps ih =>
    have hp := h p (by simp)
    have hline : '\n' ∉ p.1 ++ ':' :: ' ' :: p.2 := by
      intro hm
      rcases List.mem_append.mp hm with h1 | h2
      · exact hp.1 h1
      · rcases h2 with _ | ⟨_, h3⟩
        · rcases h3 with _ | ⟨_, h4⟩
          exact hp.2 h4
    have hmk : mkStatusRaw (p :: ps) =
        (p.1 ++ ':' :: ' ' :: p.2) ++ '\n' :: mkStatusRaw ps := by
      simp [mkStatusRaw]
    rw [hmk, splitNl_cons_line _ _ hline, ih (fun q hq => h q (by simp [hq]))]
    simp

theorem splitCS_mk (k v : List Char) (hk : hasCS k = false) :
    splitCS (k ++ ':' :: ' ' :: v) = some (k, v) := by
  induction k with
  | nil => simp [splitCS, headIsSpace]
  | cons c cs ih =>
    simp only [hasCS, Bool.or_eq_false_iff, Bool.and_eq_false_iff] at hk
    have hcond : (c == ':' && headIsSpace (cs ++ ':' :: ' ' :: v)) = false := by
      cases cs with
      | nil => simp [headIsSpace]
      | cons x xs =>
        rcases hk.1 with h1 | h2
        · simp [h1]
        · simp only [List.cons_append]
          simp only [headIsSpace] at h2 ⊢
          simp [h2]
    simp only [List.cons_append, splitCS, List.append_eq, hcond,
      Bool.false_eq_true, if_false, ih hk.2]
    rfl

theorem parseLines_mk (ps : List (List Char × List Char))
    (h : ∀ p ∈ ps, hasCS p.1 = false) :
    parseLines (ps.map (fun p => p.1 ++ ':' :: ' ' :: p.2)) = some ps := by
  induction ps with
  | nil => rfl
  | cons p ps ih =>
    simp only [List.map_cons, parseLines, splitCS_mk p.1 p.2 (h p (by simp)),
      ih (fun q hq => h q (by simp [hq])), Option.bind_eq_bind, Option.some_bind]
    rfl

/-- Preparation step of `status_from_raw` applied to a well-formed raw
response built from pairs: the parsed dict is exactly the pairs. -/
theorem status_parse_mk (ps : List (List Char × List Char))
    (h : ∀ p ∈ ps, hasCS p.1 = false ∧ '\n' ∉ p.1 ∧ '\n' ∉ p.2) :
    parseLines ((splitNl (mkStatusRaw ps)).dropLast.dropLast) = some ps := by
  rw [splitNl_mkStatusRaw ps (fun p hp => (h p hp).2)]
  have : (ps.map (fun p => p.1 ++ ':' :: ' ' :: p.2) ++ ["OK".toList, []]).dropLast.dropLast
      = ps.map (fun p => p.1 ++ ':' :: ' ' :: p.2) := by
    rw [show (ps.map (fun p => p.1 ++ ':' :: ' ' :: p.2) ++ ["OK".toList, []])
        = (ps.map (fun p => p.1 ++ ':' :: ' ' :: p.2) ++ ["OK".toList]) ++ [[]] by simp,
      List.dropLast_concat, List.dropLast_concat]
  rw [this]
  exact parseLines_mk ps (fun p hp => (h p hp).1)

/-- Shorthand: dict lookup by string key. -/
def getK (s : String) (ps : List (List Char × List Char)) : Option (List Char) :=
  lookupLast s.toList ps

/-- C6: for every raw status response (well-formed key/value lines plus
the `OK` terminator) that the status decoder accepts, each of the 22
fields whose key is absent from the response decodes to `none` (never a
default), and each boolean field present with value `v` decodes to
`some (v != "0")` when `v` is non-empty and to `none` exactly when `v`
is the empty string. -/
theorem C6_absent_null_bool_semantics
    (ps : List (List Char × List Char)) (st : Status)
    (hwf : ∀ p ∈ ps, hasCS p.1 = false ∧ '\n' ∉ p.1 ∧ '\n' ∉ p.2)
    (hdec : status_from_raw (mkStatusRaw ps) = some st) :
    ((getK "state" ps = none → st.state = none) ∧
     (getK "time" ps = none → st.time = none) ∧
     (getK "elapsed" ps = none → st.elapsed = none) ∧
     (getK "bitrate" ps = none → st.bitrate = none) ∧
     (getK "mixrampdb" ps = none → st.mixrampdb = none) ∧
     (getK "mixrampdelay" ps = none → st.mixrampdelay = none) ∧
     (getK "audio" ps = none → st.audio = none) ∧
     (getK "error" ps = none → st.error = none)) ∧
    ((getK "repeat" ps = none → st.«repeat» = none) ∧
     (getK "random" ps = none → st.random = none) ∧
     (getK "single" ps = none → st.single = none) ∧
     (getK "consume" ps = none → st.consume = none)) ∧
    ((getK "volume" ps = none → st.volume = none) ∧
     (getK "playlist" ps = none → st.playlist = none) ∧
     (getK "playlistlength" ps = none → st.playlistlength = none) ∧
     (getK "song" ps = none → st.song = none) ∧
     (getK "songid" ps = none → st.songid = none) ∧
     (getK "nextsong" ps = none → st.nextsong = none) ∧
     (getK "nextsongid" ps = none → st.nextsongid = none) ∧
     (getK "duration" ps = none → st.duration = none) ∧
     (getK "xfade" ps = none → st.xfade = none) ∧
     (getK "updating_db" ps = none → st.updating_db = none)) ∧
    ((∀ v, getK "repeat" ps = some v →
        (v = [] → st.«repeat» = none) ∧
        (v ≠ [] → st.«repeat» = some (v != "0".toList))) ∧
     (∀ v, getK "random" ps = some v →
        (v = [] → st.random = none) ∧
        (v ≠ [] → st.random = some (v != "0".toList))) ∧
     (∀ v, getK "single" ps = some v →
        (v = [] → st.single = none) ∧
        (v ≠ [] → st.single = some (v != "0".toList))) ∧
     (∀ v, getK "consume" ps = some v →
        (v = [] → st.consume = none) ∧
        (v ≠ [] → st.consume = some (v != "0".toList)))) := by
  unfold status_from_raw at hdec
  rw [status_parse_mk ps hwf] at hdec
  simp only [Option.bind_eq_bind, Option.some_bind, Option.bind_eq_some,
    Option.pure_def, Option.some.injEq] at hdec
  obtain ⟨v1, hv1, v2, hv2, v3, hv3, v4, hv4, v5, hv5, v6, hv6, v7, hv7,
    v8, hv8, v9, hv9, v10, hv10, hst⟩ := hdec
  subst hst
  unfold getK
  refine ⟨⟨?_, ?_, ?_, ?_, ?_, ?_, ?_, ?_⟩, ⟨?_, ?_, ?_, ?_⟩,
    ⟨?_, ?_, ?_, ?_, ?_, ?_, ?_, ?_, ?_, ?_⟩, ?_, ?_, ?_, ?_⟩
  · exact fun hx => hx
  · exact fun hx => hx
  · exact fun hx => hx
  · exact fun hx => hx
  · exact fun hx => hx
  · exact fun hx => hx
  · exact fun hx => hx
  · exact fun hx => hx
  · intro hx
    show strBoolOf (lookupLast "repeat".toList ps) = none
    rw [hx]
    rfl
  · intro hx
    show strBoolOf (lookupLast "random".toList ps) = none
    rw [hx]
    rfl
  · intro hx
    show strBoolOf (lookupLast "single".toList ps) = none
    rw [hx]
    rfl
  · intro hx
    show strBoolOf (lookupLast "consume".toList ps) = none
    rw [hx]
    rfl
  · intro hx; rw [hx] at hv1; exact (Option.some.inj hv1).symm
  · intro hx; rw [hx] at hv2; exact (Option.some.inj hv2).symm
  · intro hx; rw [hx] at hv3; exact (Option.some.inj hv3).symm
  · intro hx; rw [hx] at hv4; exact (Option.some.inj hv4).symm
  · intro hx; rw [hx] at hv5; exact (Option.some.inj hv5).symm
  · intro hx; rw [hx] at hv6; exact (Option.some.inj hv6).symm
  · intro hx; rw [hx] at hv7; exact (Option.some.inj hv7).symm
  · intro hx; rw [hx] at hv8; exact (Option.some.inj hv8).symm
  · intro hx; rw [hx] at hv9; exact (Option.some.inj hv9).symm
  · intro hx; rw [hx] at hv10; exact (Option.some.inj hv10).symm
  · intro v hv
    constructor
    · intro he
      subst he
      show strBoolOf (lookupLast "repeat".toList ps) = none
      rw [hv]
      rfl
    · intro hne
      cases v with
      | nil => exact absurd rfl hne
      | cons a as =>
        show strBoolOf (lookupLast "repeat".toList ps) = some ((a :: as) != "0".toList)
        rw [hv]
        rfl
  · intro v hv
    constructor
    · intro he
      subst he
      show strBoolOf (lookupLast "random".toList ps) = none
      rw [hv]
      rfl
    · intro hne
      cases v with
      | nil => exact absurd rfl hne
      | cons a as =>
        show strBoolOf (lookupLast "random".toList ps) = some ((a :: as) != "0".toList)
        rw [hv]
        rfl
  · intro v hv
    constructor
    · intro he
      subst he
      show strBoolOf (lookupLast "single".toList ps) = none
      rw [hv]
      rfl
    · intro hne
      cases v with
      | nil => exact absurd rfl hne
      | cons a as =>
        show strBoolOf (lookupLast "single".toList ps) = some ((a :: as) != "0".toList)
        rw [hv]
        rfl
  · intro v hv
    constructor
    · intro he
      subst he
      show strBoolOf (lookupLast "consume".toList ps) = none
      rw [hv]
      rfl
    · intro hne
      cases v with
      | nil => exact absurd rfl hne
      | cons a as =>
        show strBoolOf (lookupLast "consume".toList ps) = some ((a :: as) != "0".toList)
        rw [hv]
        rfl

/-- Concrete pair list for the C6 witness. -/
def c6ps : List (List Char × List Char) :=
  [("volume".toList, "50".toList), ("repeat".toList, "1".toList),
   ("consume".toList, [])]

/-- The snapshot the decoder produces on `mkStatusRaw c6ps`. -/
def c6st : Status := {
  state := none
  time := none
  elapsed := none
  bitrate := none
  mixrampdb := none
  mixrampdelay := none
  audio := none
  error := none
  «repeat» := some true
  random := none
  single := none
  consume := none
  volume := some 50
  playlist := none
  playlistlength := none
  song := none
  songid := none
  nextsong := none
  nextsongid := none
  duration := none
  xfade := none
  updating_db := none }

/-- C6 witness: concrete instance — `single` is absent and decodes to
none, `repeat: 1` decodes to true, `consume:` (empty value) decodes to
none. -/
theorem C6_witness :
    c6st.single = none ∧ c6st.«repeat» = some true ∧ c6st.consume = none := by
  have h := C6_absent_null_bool_semantics c6ps c6st (by decide) (by rfl)
  refine ⟨h.2.1.2.2.1 (by rfl), ?_, ?_⟩
  · exact (h.2.2.2.1 "1".toList (by rfl)).2 (by simp)
  · exact (h.2.2.2.2.2.2 [] (by rfl)).1 rfl

/-- Python exception kinds raised by the decoders:
`ValueError` (bad int / bad unpacking), `TypeError` (indexing `None`),
`RuntimeError` (the explicit raise in `songs_list_from_raw`, the spec's
ProtocolError), `UnicodeDecodeError`. -/
inductive PyErr
  | valueErr
  | typeErr
  | runtimeErr
  | unicodeErr
  | queueFull
  deriving DecidableEq, Repr

/-- The `Song` namedtuple (src/aiompd/types.py). -/
structure Song where
  file : Option (List Char)
  title : Option (List Char)
  name : Option (List Char)
  pos : Option Int
  id : Option Int
  deriving DecidableEq, Repr

/-- `int(raw[k]) if raw.get(k) else None`: `None`/empty are falsy and
yield `None`; otherwise `int` runs and may raise `ValueError`. -/
def intIfTruthy (v : Option (List Char)) : Except PyErr (Option Int) :=
  match v with
  | none => Except.ok none
  | some [] => Except.ok none
  | some s =>
    match pyInt s with
    | some n => Except.ok (some n)
    | none => Except.error PyErr.valueErr

/-- `song_from_raw` (src/aiompd/helpers.py lines 116-123); a raised
`ValueError` from either `int(...)` propagates. -/
def song_from_raw (d : List (List Char × List Char)) : Except PyErr Song :=
  match intIfTruthy (lookupLast "Pos".toList d) with
  | Except.error e => Except.error e
  | Except.ok pos =>
    match intIfTruthy (lookupLast "Id".toList d) with
    | Except.error e => Except.error e
    | Except.ok id =>
      Except.ok {
        file := lookupLast "file".toList d
        title := lookupLast "Title".toList d
        name := lookupLast "Name".toList d
        pos := pos
        id := id }

/-- The scanning loop of `songs_list_from_raw` (src/aiompd/helpers.py
lines 87-113): `cur` is the `current` dict (`none` before the first
`file:` line), `acc` the `res` list.  Exhausting the lines without the
`OK` terminator hits the `for`-`else` branch and raises `RuntimeError`;
a separator-less line raises `ValueError`; a non-`file` line before any
`file:` line indexes `None` and raises `TypeError`. -/
def songsLoop : List (List Char) → Option (List (List Char × List Char)) →
    List Song → Except PyErr (List Song)
  | [], _, _ => Except.error PyErr.runtimeErr
  | l :: rest, cur, acc =>
    if l = "OK".toList then
      match cur with
      | none => Except.ok acc
      | some d =>
        if d.isEmpty then Except.ok acc
        else (song_from_raw d).map (fun s => acc ++ [s])
    else
      match splitCS l with
      | none => Except.error PyErr.valueErr
      | some (k, v) =>
        if k = "file".toList then
          match cur with
          | none => songsLoop rest (some [(k, v), (k, v)]) acc
          | some d =>
            if d.isEmpty then songsLoop rest (some [(k, v), (k, v)]) acc
            else
              match song_from_raw d with
              | Except.error e => Except.error e
              | Except.ok s => songsLoop rest (some [(k, v), (k, v)]) (acc ++ [s])
        else
          match cur with
          | none => Except.error PyErr.typeErr
          | some d => songsLoop rest (some (d ++ [(k, v)])) acc

/-- `songs_list_from_raw` at the line level: scan the split lines with
an empty state. -/
def songsFromLines (ls : List (List Char)) : Except PyErr (List Song) :=
  songsLoop ls none []

/-- A multi-record block: the `file:` value and the attribute pairs of
the lines following it. -/
def blockLines (b : List Char × List (List Char × List Char)) : List (List Char) :=
  ("file".toList ++ ':' :: ' ' :: b.1) :: b.2.map (fun p => p.1 ++ ':' :: ' ' :: p.2)

/-- The lines of a sequence of blocks. -/
def blocksLines (bs : List (List Char × List (List Char × List Char))) :
    List (List Char) :=
  bs.foldr (fun b acc => blockLines b ++ acc) []

/-- The `current` dict after scanning one whole block: the duplicated
`file` binding (dict literal plus re-assignment) followed by the
attribute pairs. -/
def blockDict (b : List Char × List (List Char × List Char)) :
    List (List Char × List Char) :=
  ("file".toList, b.1) :: ("file".toList, b.1) :: b.2

/-- Well-formedness of a block: attribute keys contain no `": "`, are
not `file`, and `Pos`/`Id` values are empty or parse as ints. -/
def goodBlock (b : List Char × List (List Char × List Char)) : Prop :=
  ∀ p ∈ b.2, hasCS p.1 = false ∧ p.1 ≠ "file".toList ∧
    ((p.1 = "Pos".toList ∨ p.1 = "Id".toList) → p.2 = [] ∨ (pyInt p.2).isSome)

/-- The value `int(v) if v else None` produces when it does not raise. -/
def truthyIntVal (v : Option (List Char)) : Option Int :=
  match v with
  | none => none
  | some [] => none
  | some s => pyInt s

/-- The `Song` value a well-formed block decodes to. -/
def songOfBlock (b : List Char × List (List Char × List Char)) : Song := {
  file := some b.1
  title := lookupLast "Title".toList b.2
  name := lookupLast "Name".toList b.2
  pos := truthyIntVal (lookupLast "Pos".toList b.2)
  id := truthyIntVal (lookupLast "Id".toList b.2) }

theorem lookupLast_cons_ne (k : List Char) (x : List Char × List Char)
    (xs : List (List Char × List Char)) (hx : x.1 ≠ k) :
    lookupLast k (x :: xs) = lookupLast k xs := by
  cases h : lookupLast k xs <;> simp [lookupLast, h, hx]

theorem lookupLast_nil_of_no_key (k : List Char)
    (d : List (List Char × List Char)) (h : ∀ p ∈ d, p.1 ≠ k) :
    lookupLast k d = none := by
  induction d with
  | nil => rfl
  | cons p ps ih =>
    rw [lookupLast_cons_ne k p ps (h p (by simp))]
    exact ih (fun q hq => h q (by simp [hq]))

theorem lookupLast_mem (k v : List Char) (d : List (List Char × List Char))
    (h : lookupLast k d = some v) : (k, v) ∈ d := by
  induction d with
  | nil => simp [lookupLast] at h
  | cons x xs ih =>
    cases hxs : lookupLast k xs with
    | some w =>
      simp only [lookupLast, hxs] at h
      obtain rfl : w = v := Option.some.inj h
      exact List.mem_cons_of_mem x (ih hxs)
    | none =>
      simp only [lookupLast, hxs] at h
      by_cases hk : x.1 = k
      · rw [if_pos hk] at h
        obtain rfl : x.2 = v := Option.some.inj h
        have hx : x = (k, x.2) := by
          rw [← hk]
        rw [hx]
        exact List.mem_cons_self _ _
      · rw [if_neg hk] at h
        exact absurd h (by simp)

theorem intIfTruthy_good (v : Option (List Char))
    (hv : ∀ s, v = some s → s = [] ∨ (pyInt s).isSome = true) :
    intIfTruthy v = Except.ok (truthyIntVal v) := by
  cases v with
  | none => rfl
  | some s =>
    cases s with
    | nil => rfl
    | cons c cs =>
      rcases hv (c :: cs) rfl with h | h
      · exact absurd h (by simp)
      · cases hn : pyInt (c :: cs) with
        | none => rw [hn] at h; exact absurd h (by simp)
        | some n =>
          have h1 : intIfTruthy (some (c :: cs)) =
              (match pyInt (c :: cs) with
               | some m => Except.ok (some m)
               | none => Except.error PyErr.valueErr) := rfl
          have h2 : truthyIntVal (some (c :: cs)) = pyInt (c :: cs) := rfl
          rw [h1, h2, hn]

theorem song_from_raw_blockDict (b : List Char × List (List Char × List Char))
    (hb : goodBlock b) :
    song_from_raw (blockDict b) = Except.ok (songOfBlock b) := by
  have hnk : ∀ p ∈ b.2, p.1 ≠ "file".toList := fun p hp => (hb p hp).2.1
  have hF : lookupLast "file".toList (blockDict b) = some b.1 := by
    have h2 : lookupLast "file".toList b.2 = none :=
      lookupLast_nil_of_no_key _ _ hnk
    simp only [blockDict, lookupLast, h2]
    simp
  have hdrop : ∀ k : List Char, "file".toList ≠ k →
      lookupLast k (blockDict b) = lookupLast k b.2 := by
    intro k hk
    unfold blockDict
    rw [lookupLast_cons_ne k _ _ hk, lookupLast_cons_ne k _ _ hk]
  have hT := hdrop "Title".toList (by decide)
  have hN := hdrop "Name".toList (by decide)
  have hP := hdrop "Pos".toList (by decide)
  have hI := hdrop "Id".toList (by decide)
  have hPosGood : ∀ s, lookupLast "Pos".toList b.2 = some s →
      s = [] ∨ (pyInt s).isSome = true := by
    intro s hs
    exact (hb _ (lookupLast_mem _ _ _ hs)).2.2 (Or.inl rfl)
  have hIdGood : ∀ s, lookupLast "Id".toList b.2 = some s →
      s = [] ∨ (pyInt s).isSome = true := by
    intro s hs
    exact (hb _ (lookupLast_mem _ _ _ hs)).2.2 (Or.inr rfl)
  unfold song_from_raw
  rw [hP, hI, intIfTruthy_good _ hPosGood, intIfTruthy_good _ hIdGood]
  simp only [songOfBlock]
  rw [hF, hT, hN]

/-- Fuelled UTF-8 decoder (Python `bytes.decode('utf8')`), rejecting
truncated sequences, bad continuation bytes, overlong encodings,
surrogates and code points above U+10FFFF; `none` models
`UnicodeDecodeError`.  The fuel is the byte count, enough because every
step consumes at least one byte. -/
def utf8DecodeF : Nat → List Nat → Option (List Char)
  | _, [] => some []
  | 0, _ :: _ => none
  | fuel + 1, b :: rest =>
    if b < 128 then
      (utf8DecodeF fuel rest).map (fun cs => Char.ofNat b :: cs)
    else if b < 194 then none
    else if b < 224 then
      match rest with
      | b1 :: rest1 =>
        if 128 ≤ b1 && b1 < 192 then
          (utf8DecodeF fuel rest1).map
            (fun cs => Char.ofNat ((b - 192) * 64 + (b1 - 128)) :: cs)
        else none
      | [] => none
    else if b < 240 then
      match rest with
      | b1 :: b2 :: rest2 =>
        if (128 ≤ b1 && b1 < 192) && (128 ≤ b2 && b2 < 192) &&
            !(b == 224 && b1 < 160) && !(b == 237 && 160 ≤ b1) then
          (utf8DecodeF fuel rest2).map
            (fun cs => Char.ofNat ((b - 224) * 4096 + (b1 - 128) * 64 + (b2 - 128)) :: cs)
        else none
      | _ => none
    else if b < 245 then
      match rest with
      | b1 :: b2 :: b3 :: rest3 =>
        if (128 ≤ b1 && b1 < 192) && (128 ≤ b2 && b2 < 192) &&
            (128 ≤ b3 && b3 < 192) &&
            !(b == 240 && b1 < 144) && !(b == 244 && 144 ≤ b1) then
          (utf8DecodeF fuel rest3).map
            (fun cs => Char.ofNat ((b - 240) * 262144 + (b1 - 128) * 4096 +
              (b2 - 128) * 64 + (b3 - 128)) :: cs)
        else none
      | _ => none
    else none

/-- Python `bytes.decode('utf8')`. -/
def utf8Decode (l : List Nat) : Option (List Char) :=
  utf8DecodeF l.length l

/-- `songs_list_from_raw` (src/aiompd/helpers.py lines 87-113) at the
byte level: decode UTF-8, split on newlines, scan. -/
def songs_list_from_raw (raw : List Nat) : Except PyErr (List Song) :=
  match utf8Decode raw with
  | none => Except.error PyErr.unicodeErr
  | some cs => songsFromLines (splitNl cs)

theorem kv_line_ne_ok (k v : List Char) : k ++ ':' :: ' ' :: v ≠ "OK".toList := by
  intro h
  have hmem : ':' ∈ k ++ ':' :: ' ' :: v := List.mem_append_right k (by simp)
  rw [h] at hmem
  exact absurd hmem (by decide)

theorem songsLoop_attr_step (k v : List Char) (rest : List (List Char))
    (d : List (List Char × List Char)) (acc : List Song)
    (hk : hasCS k = false) (hkf : k ≠ "file".toList) :
    songsLoop ((k ++ ':' :: ' ' :: v) :: rest) (some d) acc =
      songsLoop rest (some (d ++ [(k, v)])) acc := by
  simp only [songsLoop, if_neg (kv_line_ne_ok k v), splitCS_mk k v hk, if_neg hkf]

theorem songsLoop_file_none (f : List Char) (rest : List (List Char))
    (acc : List Song) :
    songsLoop (("file".toList ++ ':' :: ' ' :: f) :: rest) none acc =
      songsLoop rest (some [("file".toList, f), ("file".toList, f)]) acc := by
  simp only [songsLoop, if_neg (kv_line_ne_ok _ f),
    splitCS_mk "file".toList f (by decide), if_pos rfl]
  simp

theorem songsLoop_file_some (f : List Char) (rest : List (List Char))
    (d : List (List Char × List Char)) (acc : List Song) (hd : d ≠ [])
    (s : Song) (hs : song_from_raw d = Except.ok s) :
    songsLoop (("file".toList ++ ':' :: ' ' :: f) :: rest) (some d) acc =
      songsLoop rest (some [("file".toList, f), ("file".toList, f)]) (acc ++ [s]) := by
  have hde : d.isEmpty = false := by simpa using hd
  simp only [songsLoop, if_neg (kv_line_ne_ok _ f),
    splitCS_mk "file".toList f (by decide), if_pos rfl, hde, hs]
  simp

theorem songsLoop_ok_none (rest : List (List Char)) (acc : List Song) :
    songsLoop ("OK".toList :: rest) none acc = Except.ok acc := by
  simp [songsLoop]

theorem songsLoop_ok_some (rest : List (List Char))
    (d : List (List Char × List Char)) (acc : List Song) (hd : d ≠ [])
    (s : Song) (hs : song_from_raw d = Except.ok s) :
    songsLoop ("OK".toList :: rest) (some d) acc = Except.ok (acc ++ [s]) := by
  have hde : d.isEmpty = false := by simpa using hd
  simp [songsLoop, hde, hs, Except.map]

theorem songsLoop_attrs (attrs : List (List Char × List Char))
    (h : ∀ p ∈ attrs, hasCS p.1 = false ∧ p.1 ≠ "file".toList) :
    ∀ rest d acc,
      songsLoop (attrs.map (fun p => p.1 ++ ':' :: ' ' :: p.2) ++ rest)
          (some d) acc =
        songsLoop rest (some (d ++ attrs)) acc := by
  induction attrs with
  | nil => intro rest d acc; simp
  | cons p ats ih =>
    intro rest d acc
    have hp := h p (by simp)
    simp only [List.map_cons, List.cons_append]
    rw [songsLoop_attr_step p.1 p.2 _ d acc hp.1 hp.2,
      ih (fun q hq => h q (by simp [hq])) rest (d ++ [(p.1, p.2)]) acc]
    simp

/-- All blocks well-formed. -/
def goodBlocks (bs : List (List Char × List (List Char × List Char))) : Prop :=
  ∀ b ∈ bs, goodBlock b

theorem blocksLines_cons (b : List Char × List (List Char × List Char))
    (bs : List (List Char × List (List Char × List Char))) :
    blocksLines (b :: bs) = blockLines b ++ blocksLines bs := rfl

theorem songsLoop_blocks_ok (bs : List (List Char × List (List Char × List Char)))
    (hbs : goodBlocks bs) :
    ∀ rest d acc sd, d ≠ [] → song_from_raw d = Except.ok sd →
      songsLoop (blocksLines bs ++ ("OK".toList :: rest)) (some d) acc =
        Except.ok (acc ++ sd :: bs.map songOfBlock) := by
  induction bs with
  | nil =>
    intro rest d acc sd hd hsd
    simpa using songsLoop_ok_some rest d acc hd sd hsd
  | cons b bs ih =>
    intro rest d acc sd hd hsd
    have hb : goodBlock b := hbs b (by simp)
    rw [blocksLines_cons]
    have hattrs : ∀ p ∈ b.2, hasCS p.1 = false ∧ p.1 ≠ "file".toList :=
      fun p hp => ⟨(hb p hp).1, (hb p hp).2.1⟩
    simp only [blockLines, List.cons_append, List.append_assoc]
    rw [songsLoop_file_some b.1 _ d acc hd sd hsd,
      songsLoop_attrs b.2 hattrs _ _ _]
    have hdict : ([("file".toList, b.1), ("file".toList, b.1)] ++ b.2) = blockDict b := by
      simp [blockDict]
    rw [hdict, ih (fun q hq => hbs q (by simp [hq])) rest (blockDict b) (acc ++ [sd])
      (songOfBlock b) (by simp [blockDict]) (song_from_raw_blockDict b hb)]
    simp

theorem songsLoop_blocks_noterm
    (bs : List (List Char × List (List Char × List Char))) (hbs : goodBlocks bs) :
    ∀ d acc sd, d ≠ [] → song_from_raw d = Except.ok sd →
      songsLoop (blocksLines bs) (some d) acc = Except.error PyErr.runtimeErr := by
  induction bs with
  | nil => intro d acc sd hd hsd; rfl
  | cons b bs ih =>
    intro d acc sd hd hsd
    have hb : goodBlock b := hbs b (by simp)
    have hattrs : ∀ p ∈ b.2, hasCS p.1 = false ∧ p.1 ≠ "file".toList :=
      fun p hp => ⟨(hb p hp).1, (hb p hp).2.1⟩
    rw [blocksLines_cons]
    simp only [blockLines, List.cons_append, List.append_assoc]
    rw [songsLoop_file_some b.1 _ d acc hd sd hsd,
      songsLoop_attrs b.2 hattrs _ _ _]
    have hdict : ([("file".toList, b.1), ("file".toList, b.1)] ++ b.2) = blockDict b := by
      simp [blockDict]
    rw [hdict]
    exact ih (fun q hq => hbs q (by simp [hq])) (blockDict b) (acc ++ [sd])
      (songOfBlock b) (by simp [blockDict]) (song_from_raw_blockDict b hb)

/-- C5: a multi-record response made of well-formed `file:` blocks
followed by the `OK` terminator line decodes to exactly one `Song` per
`file:` line, in input order; and when the terminator is absent so the
line scan exhausts the input, the decoder fails with `RuntimeError`
(the spec's ProtocolError, the explicit raise of the `for`-`else`)
instead of returning a partial list. -/
theorem C5_multirecord_decode (bs : List (List Char × List (List Char × List Char)))
    (rest : List (List Char)) (hbs : goodBlocks bs) :
    songsFromLines (blocksLines bs ++ ("OK".toList :: rest)) =
      Except.ok (bs.map songOfBlock) ∧
    (bs.map songOfBlock).length = bs.length ∧
    songsFromLines (blocksLines bs) = Except.error PyErr.runtimeErr := by
  refine ⟨?_, by simp, ?_⟩
  · cases bs with
    | nil => simpa [blocksLines, songsFromLines] using songsLoop_ok_none rest []
    | cons b bs' =>
      have hb : goodBlock b := hbs b (by simp)
      have hattrs : ∀ p ∈ b.2, hasCS p.1 = false ∧ p.1 ≠ "file".toList :=
        fun p hp => ⟨(hb p hp).1, (hb p hp).2.1⟩
      unfold songsFromLines
      rw [blocksLines_cons]
      simp only [blockLines, List.cons_append, List.append_assoc]
      rw [songsLoop_file_none b.1 _ [], songsLoop_attrs b.2 hattrs _ _ _]
      have hdict : ([("file".toList, b.1), ("file".toList, b.1)] ++ b.2) = blockDict b := by
        simp [blockDict]
      rw [hdict, songsLoop_blocks_ok bs' (fun q hq => hbs q (by simp [hq])) rest
        (blockDict b) [] (songOfBlock b) (by simp [blockDict])
        (song_from_raw_blockDict b hb)]
      simp
  · cases bs with
    | nil => rfl
    | cons b bs' =>
      have hb : goodBlock b := hbs b (by simp)
      have hattrs : ∀ p ∈ b.2, hasCS p.1 = false ∧ p.1 ≠ "file".toList :=
        fun p hp => ⟨(hb p hp).1, (hb p hp).2.1⟩
      unfold songsFromLines
      rw [blocksLines_cons]
      simp only [blockLines, List.cons_append, List.append_assoc]
      rw [songsLoop_file_none b.1 _ [], songsLoop_attrs b.2 hattrs _ _ _]
      have hdict : ([("file".toList, b.1), ("file".toList, b.1)] ++ b.2) = blockDict b := by
        simp [blockDict]
      rw [hdict]
      exact songsLoop_blocks_noterm bs' (fun q hq => hbs q (by simp [hq]))
        (blockDict b) [] (songOfBlock b) (by simp [blockDict])
        (song_from_raw_blockDict b hb)

instance (b : List Char × List (List Char × List Char)) :
    Decidable (goodBlock b) := by
  unfold goodBlock; infer_instance

instance (bs : List (List Char × List (List Char × List Char))) :
    Decidable (goodBlocks bs) := by
  unfold goodBlocks; infer_instance

/-- Concrete blocks for the C5 witness: the spec's two-`file:` example. -/
def c5b1 : List Char × List (List Char × List Char) :=
  ("one.mp3".toList,
   [("Title".toList, "A".toList), ("Pos".toList, "0".toList),
    ("Id".toList, "1".toList)])

/-- Second block of the C5 witness. -/
def c5b2 : List Char × List (List Char × List Char) :=
  ("two.mp3".toList,
   [("Title".toList, "B".toList), ("Pos".toList, "1".toList),
    ("Id".toList, "2".toList)])

/-- C5 witness: the spec's two-block example decodes to exactly two
songs in input order, and the same lines without the trailing `OK`
fail with `RuntimeError`; the byte-level decoder agrees. -/
theorem C5_multirecord_witness :
    songsFromLines (blocksLines [c5b1, c5b2] ++ ("OK".toList :: [[]])) =
      Except.ok ([c5b1, c5b2].map songOfBlock) ∧
    songsFromLines (blocksLines [c5b1, c5b2]) = Except.error PyErr.runtimeErr ∧
    songs_list_from_raw (strBytes
        "file: one.mp3\nTitle: A\nPos: 0\nId: 1\nfile: two.mp3\nTitle: B\nPos: 1\nId: 2\nOK\n") =
      Except.ok
        [{ file := some "one.mp3".toList, title := some "A".toList,
           name := none, pos := some 0, id := some 1 },
         { file := some "two.mp3".toList, title := some "B".toList,
           name := none, pos := some 1, id := some 2 }] := by
  have h := C5_multirecord_decode [c5b1, c5b2] [[]] (by decide)
  exact ⟨h.1, h.2.2, by rfl⟩

/-- The zero code point of every Unicode category-Nd decimal-digit
range (each range is exactly the ten code points `z .. z+9` with digit
values `0 .. 9`; Unicode 14, as shipped with CPython 3.11).  Python's
`\d` in a `str` pattern matches exactly these characters, and `int()`
accepts them. -/
def ndZeros : List Nat :=
  [0x0030, 0x0660, 0x06F0, 0x07C0, 0x0966, 0x09E6, 0x0A66, 0x0AE6,
   0x0B66, 0x0BE6, 0x0C66, 0x0CE6, 0x0D66, 0x0DE6, 0x0E50, 0x0ED0,
   0x0F20, 0x1040, 0x1090, 0x17E0, 0x1810, 0x1946, 0x19D0, 0x1A80,
   0x1A90, 0x1B50, 0x1BB0, 0x1C40, 0x1C50, 0xA620, 0xA8D0, 0xA900,
   0xA9D0, 0xA9F0, 0xAA50, 0xABF0, 0xFF10, 0x104A0, 0x10D30, 0x11066,
   0x110F0, 0x11136, 0x111D0, 0x112F0, 0x11450, 0x114D0, 0x11650,
   0x116C0, 0x11730, 0x118E0, 0x11950, 0x11C50, 0x11D50, 0x11DA0,
   0x16A60, 0x16AC0, 0x16B50, 0x1D7CE, 0x1D7D8, 0x1D7E2, 0x1D7EC,
   0x1D7F6, 0x1E140, 0x1E2F0, 0x1E950, 0x1FBF0]

/-- The decimal value of a Unicode category-Nd digit, or `none` for
any other character. -/
def pyDigitVal (c : Char) : Option Nat :=
  (ndZeros.find? (fun z => z ≤ c.toNat && c.toNat ≤ z + 9)).map
    (fun z => c.toNat - z)

/-- Python's `\d` for `str` patterns: any Unicode decimal digit. -/
def isPyDigit (c : Char) : Bool :=
  (pyDigitVal c).isSome

/-- `int()` on a run of Unicode decimal digits (as produced by a `\d+`
group): base-ten value from the per-character digit values. -/
def digitsValU (l : List Char) : Nat :=
  l.foldl (fun a c => a * 10 + ((pyDigitVal c).getD 0)) 0

/-- Maximal leading run of Unicode decimal digits (the greedy `\d+`). -/
def spanDigits : List Char → List Char × List Char
  | [] => ([], [])
  | c :: rest =>
    if isPyDigit c then
      let r := spanDigits rest
      (c :: r.1, r.2)
    else ([], c :: rest)

/-- Drop a literal head from a list, or fail. -/
def stripHead : List Char → List Char → Option (List Char)
  | [], l => some l
  | _ :: _, [] => none
  | p :: ps, c :: cs => if c = p then stripHead ps cs else none

/-- The backtracking split of `(.+)\} (.+)$`: the latest occurrence of
`"} "` with a nonempty remainder wins (the first `(.+)` is greedy), the
remainder runs to the end of the string. -/
def lastBraceSplit : List Char → Option (List Char × List Char)
  | [] => none
  | x :: xs =>
    match lastBraceSplit xs with
    | some (c, m) => some (x :: c, m)
    | none =>
      match x, xs with
      | '}', ' ' :: m => if m.isEmpty then none else some ([], m)
      | _, _ => none

/-- The regex `^ACK \[(\d+)@(\d+)\] \{(.+)\} (.+)$` of
`ExceptionQueueItem.RE` (src/aiompd/helpers.py line 127), applied to the
stripped text: literal `ACK [`, nonempty groups of Unicode decimal
digits around `@` (Python `\d` on a `str` pattern matches every
category-Nd digit, and `int()` parses them), literal `] {`, then the
greedy `(.+)\} (.+)$` where `.` excludes newlines.  The input is
already stripped, so `$` is end-of-string. -/
def ackMatch (t : List Char) : Option (Nat × Nat × List Char × List Char) :=
  match stripHead "ACK [".toList t with
  | none => none
  | some r1 =>
    let s1 := spanDigits r1
    if s1.1.isEmpty then none
    else
      match s1.2 with
      | '@' :: r3 =>
        let s2 := spanDigits r3
        if s2.1.isEmpty then none
        else
          match s2.2 with
          | ']' :: ' ' :: '{' :: r5 =>
            if '\n' ∈ r5 then none
            else
              match lastBraceSplit r5 with
              | none => none
              | some (c, m) =>
                if c.isEmpty then none
                else some (digitsValU s1.1, digitsValU s2.1, c, m)
          | _ => none
      | _ => none

/-- `ExceptionQueueItem` attributes (src/aiompd/helpers.py lines
126-153): `data` is the exception payload (`args`), the other fields
the attributes set in `__init__` / `_set_not_parsed`. -/
structure ExcItem where
  data : List Nat
  text : Option (List Char)
  error : Option Nat
  command_listNum : Option Nat
  command : Option (List Char)
  message : Option (List Char)
  deriving DecidableEq, Repr

/-- `_set_not_parsed` (src/aiompd/helpers.py lines 148-153): every
attribute, `text` included, is set to `None`; only the exception
payload keeps the raw delivery. -/
def excNotParsed (data : List Nat) : ExcItem :=
  { data := data, text := none, error := none, command_listNum := none,
    command := none, message := none }

/-- The regex stage of `ExceptionQueueItem.__init__` applied to the
stripped text `t`. -/
def mkExcItemFromText (data : List Nat) (t : List Char) : ExcItem :=
  match ackMatch t with
  | none => excNotParsed data
  | some (e, i, cmd, msg) =>
    { data := data, text := some t, error := some e,
      command_listNum := some i, command := some cmd, message := some msg }

/-- `ExceptionQueueItem.__init__` (src/aiompd/helpers.py lines
129-146): store the delivery as the exception payload, decode it as
UTF-8 (failure → `_set_not_parsed`), strip it, and match the `ACK`
regex (non-match → `_set_not_parsed`). -/
def mkExcItem (data : List Nat) : ExcItem :=
  match utf8Decode data with
  | none => excNotParsed data
  | some cs => mkExcItemFromText data (pyStrip cs)

/-- C3 counterexample: on a non-matching (but decodable) input the
error decoder sets every attribute to `None` — in particular `text` is
not populated with the raw input, contrary to the claim. -/
theorem C3_counterexample :
    mkExcItem (strBytes "garbage") = excNotParsed (strBytes "garbage") ∧
    (mkExcItem (strBytes "garbage")).text = none := by
  exact ⟨rfl, rfl⟩

/-- The C3 example input bytes,
`b"ACK [5@0] {play} song doesn't exist\n"`. -/
def c3bytes : List Nat :=
  strBytes "ACK [5@0] {play} song doesn" ++ [39] ++ strBytes "t exist\n"

/-- The expected message text, `song doesn't exist`. -/
def c3msg : List Char :=
  "song doesn".toList ++ [Char.ofNat 39] ++ "t exist".toList

/-- The expected stripped text of the C3 example. -/
def c3text : List Char :=
  "ACK [5@0] {play} song doesn".toList ++ [Char.ofNat 39] ++ "t exist".toList

/-- A C3 input whose code group is the Unicode digit U+0665
(ARABIC-INDIC DIGIT FIVE, UTF-8 `0xD9 0xA5`): Python `\d` matches it
and `int()` parses it as 5. -/
def c3uBytes : List Nat :=
  strBytes "ACK [" ++ [217, 165] ++ strBytes "@0] {play} x\n"

/-- The stripped text of the Unicode-digit C3 input. -/
def c3uText : List Char :=
  "ACK [".toList ++ [Char.ofNat 0x665] ++ "@0] {play} x".toList

/-- C3 (amended): if the decoded, stripped input matches the `ACK`
pattern, all five fields are populated (the example yields code=5,
commandIndex=0, command="play", message="song doesn·t exist", and a
code group written with the Unicode digit U+0665 yields code=5); if it
does not match — including undecodable bytes — every attribute
including `text` is set to `None`, the raw input surviving only as the
exception payload. -/
theorem C3_amended_error_decode (data : List Nat) :
    (utf8Decode data = none → mkExcItem data = excNotParsed data) ∧
    (∀ cs, utf8Decode data = some cs → ackMatch (pyStrip cs) = none →
      mkExcItem data = excNotParsed data) ∧
    (∀ cs e i cmd msg, utf8Decode data = some cs →
      ackMatch (pyStrip cs) = some (e, i, cmd, msg) →
      mkExcItem data =
        { data := data, text := some (pyStrip cs), error := some e,
          command_listNum := some i, command := some cmd,
          message := some msg }) ∧
    mkExcItem c3bytes =
      { data := c3bytes, text := some c3text, error := some 5,
        command_listNum := some 0, command := some "play".toList,
        message := some c3msg } ∧
    mkExcItem c3uBytes =
      { data := c3uBytes, text := some c3uText, error := some 5,
        command_listNum := some 0, command := some "play".toList,
        message := some "x".toList } := by
  refine ⟨?_, ?_, ?_, by rfl, by rfl⟩
  · intro h
    unfold mkExcItem
    rw [h]
  · intro cs h1 h2
    have e1 : mkExcItem data = mkExcItemFromText data (pyStrip cs) := by
      unfold mkExcItem
      rw [h1]
    rw [e1]
    unfold mkExcItemFromText
    rw [h2]
  · intro cs e i cmd msg h1 h2
    have e1 : mkExcItem data = mkExcItemFromText data (pyStrip cs) := by
      unfold mkExcItem
      rw [h1]
    rw [e1]
    unfold mkExcItemFromText
    rw [h2]

/-- C3 amended witness: the general theorem applied to a concrete
non-matching input — every attribute of the result is `None`. -/
theorem C3_amended_witness :
    mkExcItem (strBytes "ACK nonsense\n") = excNotParsed (strBytes "ACK nonsense\n") := by
  exact (C3_amended_error_decode (strBytes "ACK nonsense\n")).2.1
    ("ACK nonsense\n".toList) (by rfl) (by rfl)

/-- A command argument: Python values passed to `_send_command`,
converted with `str(...)`. -/
inductive Arg
  | i (n : Int)
  | s (t : List Char)
  deriving DecidableEq, Repr

/-- Python `str(a)` for the argument kinds used by the client. -/
def argStr : Arg → List Char
  | Arg.i n => (toString n).toList
  | Arg.s t => t

/-- Python `' '.join(parts)`. -/
def joinSpace : List (List Char) → List Char
  | [] => []
  | [x] => x
  | x :: xs => x ++ ' ' :: joinSpace xs

/-- The formatting step of `Client._send_command`
(src/aiompd/client.py line 98):
`'{}\n'.format(' '.join([command] + [str(a) for a in args]))`. -/
def preparedLine (command : List Char) (args : List Arg) : List Char :=
  joinSpace (command :: args.map argStr) ++ ['\n']

/-- UTF-8 encoding of one scalar value. -/
def utf8EncodeChar (c : Char) : List Nat :=
  let n := c.toNat
  if n < 128 then [n]
  else if n < 2048 then [192 + n / 64, 128 + n % 64]
  else if n < 65536 then [224 + n / 4096, 128 + n / 64 % 64, 128 + n % 64]
  else [240 + n / 262144, 128 + n / 4096 % 64, 128 + n / 64 % 64, 128 + n % 64]

/-- Python `str.encode('utf8')`. -/
def utf8Encode (l : List Char) : List Nat :=
  l.foldr (fun c acc => utf8EncodeChar c ++ acc) []

/-- The bytes `Client._send_command` writes to the transport
(src/aiompd/client.py line 99): `prepared.encode('utf8')`. -/
def sendBytes (command : List Char) (args : List Arg) : List Nat :=
  utf8Encode (preparedLine command args)

theorem joinSpace_cons_cons (x y : List Char) (ys : List (List Char)) :
    joinSpace (x :: y :: ys) = x ++ ' ' :: joinSpace (y :: ys) := rfl

theorem joinSpace_head (x : List Char) (ys : List (List Char)) :
    joinSpace (x :: ys) =
      x ++ (ys.map (fun y => ' ' :: y)).foldr (fun a b => a ++ b) [] := by
  induction ys generalizing x with
  | nil => simp [joinSpace]
  | cons y ys ih =>
    rw [joinSpace_cons_cons, ih y]
    simp

/-- C7: `_send_command` writes exactly the command name followed by
each argument's string form, joined by single spaces and terminated by
one newline, encoded as UTF-8; in particular `execute("setvol", 50)`
writes exactly `b"setvol 50\n"`. -/
theorem C7_command_format (command : List Char) (args : List Arg) :
    sendBytes command args =
      utf8Encode (command ++
        (args.map (fun a => ' ' :: argStr a)).foldr (fun a b => a ++ b) [] ++
        ['\n']) ∧
    sendBytes "setvol".toList [Arg.i 50] = strBytes "setvol 50\n" := by
  constructor
  · unfold sendBytes preparedLine
    rw [joinSpace_head]
    simp [List.map_map]
    rfl
  · rfl

/-- The client state relevant to connection handling: cached transport
and protocol handles, cached status, last-used host/port, and the
auto-reconnect flag (src/aiompd/client.py lines 21-31, 76-78). -/
structure ClientSt where
  transport : Option Nat
  protocol : Option Nat
  status : Option Status
  host : List Char
  port : Nat
  autoReconnect : Bool
  deriving DecidableEq, Repr

/-- Observable wire/loop actions of the client. -/
inductive WireAct
  | write (bytes : List Nat)
  | reconnectTo (host : List Char) (port : Nat)
  deriving DecidableEq, Repr

/-- The `lock` decorator (src/aiompd/helpers.py lines 12-23): a client
method first checks `self._transport is None` and raises
`RuntimeError("connection closed")` (the spec's ConnectionError)
before the wrapped body can run; only otherwise does the body execute
and produce wire actions. -/
def lockWrap (st : ClientSt)
    (body : ClientSt → Except PyErr Unit × List WireAct) :
    Except PyErr Unit × List WireAct :=
  if st.transport.isNone then (Except.error PyErr.runtimeErr, [])
  else body st

/-- A locked client command whose body performs the
`Client._send_command` write (src/aiompd/client.py lines 96-99). -/
def sendCommandCall (st : ClientSt) (command : List Char) (args : List Arg) :
    Except PyErr Unit × List WireAct :=
  lockWrap st (fun _ => (Except.ok (), [WireAct.write (sendBytes command args)]))

/-- C8: every locked client call made while no transport is cached
(the Connection is not Connected) fails with the connection-closed
error and performs no wire action at all — the body, and hence the
write, never runs; in particular a command send writes nothing. -/
theorem C8_fail_fast (st : ClientSt) (h : st.transport = none) :
    (∀ body : ClientSt → Except PyErr Unit × List WireAct,
      lockWrap st body = (Except.error PyErr.runtimeErr, [])) ∧
    (∀ command args,
      sendCommandCall st command args = (Except.error PyErr.runtimeErr, [])) := by
  have hn : st.transport.isNone = true := by simp [h]
  constructor
  · intro body
    simp [lockWrap, hn]
  · intro command args
    simp [sendCommandCall, lockWrap, hn]

/-- C8 witness: a concrete disconnected state. -/
theorem C8_fail_fast_witness :
    sendCommandCall
      { transport := none, protocol := none, status := none,
        host := "localhost".toList, port := 6600, autoReconnect := false }
      "setvol".toList [Arg.i 50] = (Except.error PyErr.runtimeErr, []) := by
  exact (C8_fail_fast _ rfl).2 "setvol".toList [Arg.i 50]

/-- `Client._on_connection_closed` (src/aiompd/client.py lines 50-53):
clear the cached transport, protocol and status. -/
def onConnectionClosed (st : ClientSt) : ClientSt :=
  { st with transport := none, protocol := none, status := none }

/-- `Protocol.connection_lost` (src/aiompd/protocol.py lines 34-43):
call `_on_connection_closed`, then, exactly when the auto-reconnect
flag is set, schedule one asynchronous reconnect (`ensure_future` of
`Client._reconnect`, src/aiompd/client.py lines 55-57, which connects
to the stored `_host`/`_port`) without awaiting it. -/
def connectionLost (st : ClientSt) : ClientSt × List WireAct :=
  (onConnectionClosed st,
   if st.autoReconnect then [WireAct.reconnectTo st.host st.port] else [])

/-- C9: on every connection-loss event the client clears its cached
transport, protocol and status snapshot, and schedules exactly one
asynchronous reconnect to the previously used host and port if and
only if the auto-reconnect flag is set; otherwise it schedules
nothing. -/
theorem C9_connection_lost (st : ClientSt) :
    (connectionLost st).1.transport = none ∧
    (connectionLost st).1.protocol = none ∧
    (connectionLost st).1.status = none ∧
    (st.autoReconnect = true →
      (connectionLost st).2 = [WireAct.reconnectTo st.host st.port]) ∧
    (st.autoReconnect = false → (connectionLost st).2 = []) := by
  refine ⟨rfl, rfl, rfl, ?_, ?_⟩
  · intro h
    simp [connectionLost, h]
  · intro h
    simp [connectionLost, h]

/-- C9 witness: concrete loss events with the flag set and cleared. -/
theorem C9_connection_lost_witness :
    (connectionLost
      { transport := some 1, protocol := some 1, status := none,
        host := "localhost".toList, port := 6600, autoReconnect := true }).2 =
      [WireAct.reconnectTo "localhost".toList 6600] ∧
    (connectionLost
      { transport := some 1, protocol := some 1, status := none,
        host := "localhost".toList, port := 6600, autoReconnect := false }).2 = [] := by
  exact ⟨(C9_connection_lost _).2.2.2.1 rfl, (C9_connection_lost _).2.2.2.2 rfl⟩

/-- `asyncio.Queue(maxsize=1).put_nowait` as instantiated in
`Client.__init__` (src/aiompd/client.py line 31): with capacity one,
an empty slot accepts the item; a held, undelivered item makes the
call raise `QueueFull` immediately (it never blocks, overwrites or
drops). -/
def putNowait (slot : Option Msg) (x : Msg) : Except PyErr (Option Msg) :=
  match slot with
  | some _ => Except.error PyErr.queueFull
  | none => Except.ok (some x)

/-- `Protocol.data_received` with the handoff channel explicit: the
result is the slot, the buffer, and the raised error if any.  When
`put_nowait` raises, the assignment clearing the buffer is skipped, so
the accumulated bytes stay in the buffer and the slot keeps its
frame. -/
def dataReceivedQ (slot : Option Msg) (buf data : List Nat) :
    Option Msg × List Nat × Option PyErr :=
  if buf.isEmpty && ackBytes.isPrefixOf data then
    match putNowait slot (Msg.exc data) with
    | Except.ok s => (s, [], none)
    | Except.error e => (slot, buf, some e)
  else
    let nb := buf ++ data
    if emitCond nb then
      match putNowait slot (Msg.ok nb) with
      | Except.ok s => (s, [], none)
      | Except.error e => (slot, nb, some e)
    else (slot, nb, none)

/-- C10: the handoff channel has capacity exactly one and delivery is
non-blocking: an empty slot accepts the frame; if the slot already
holds an undelivered frame when a new frame completes, the delivery
raises `QueueFull` immediately, the slot still holds the old frame and
the buffer still holds the new frame's bytes — nothing blocks, is
overwritten, or is dropped. -/
theorem C10_handoff_single_slot (f : Msg) (buf data : List Nat)
    (hack : (buf.isEmpty && ackBytes.isPrefixOf data) = false)
    (hemit : emitCond (buf ++ data) = true) :
    (∀ x, putNowait none x = Except.ok (some x)) ∧
    (∀ g x, putNowait (some g) x = Except.error PyErr.queueFull) ∧
    dataReceivedQ (some f) buf data = (some f, buf ++ data, some PyErr.queueFull) ∧
    dataReceivedQ none buf data = (some (Msg.ok (buf ++ data)), [], none) := by
  refine ⟨fun x => rfl, fun g x => rfl, ?_, ?_⟩
  · simp [dataReceivedQ, hack, hemit, putNowait]
  · simp [dataReceivedQ, hack, hemit, putNowait]

/-- C10 witness: a full slot rejects a completed `b"OK\n"` frame and
keeps both frames; an empty slot accepts it. -/
theorem C10_handoff_witness :
    dataReceivedQ (some (Msg.ok (strBytes "old\nOK\n"))) [] (strBytes "OK\n") =
      (some (Msg.ok (strBytes "old\nOK\n")), strBytes "OK\n", some PyErr.queueFull) ∧
    dataReceivedQ none [] (strBytes "OK\n") =
      (some (Msg.ok (strBytes "OK\n")), [], none) := by
  have h := C10_handoff_single_slot (Msg.ok (strBytes "old\nOK\n")) []
    (strBytes "OK\n") (by decide) (by decide)
  exact ⟨by simpa using h.2.2.1, by simpa using h.2.2.2⟩
